import Mathlib

/-!
Verification development for the serpentone repository.

The Python sources (`play.py`, `tuning.py`, `input.py`, `tui.py`, `main.py`)
are shallowly embedded below.  Pure functions become Lean functions; the
stateful `PolyphonyManager` and the Textual app become explicit state records
with state-transition functions.  Calls into the external audio engine
(`supriya`) and into the UI notification sink are recorded in append-only
event logs, so that theorems can speak about exactly which engine and
notification calls a given operation performs.  Python `float` arithmetic is
modelled with exact real arithmetic (`ℝ`, with `Real.rpow` for `**`), and
Python `int` with `ℤ` (Python `%` on a positive modulus agrees with
`Int.emod`).
-/

/-! ## Association-list model of Python `dict`

`dictLookup` is `d.get(k)` / `k in d`, `dictSet` is `d[k] = v` (replace in
place if the key exists, else append), `dictDel` is `d.pop(k)` / `del d[k]`.
-/

/-- Python `d.get(k)` on a dict represented as an association list. -/
def dictLookup {κ α : Type} [DecidableEq κ] (k : κ) : List (κ × α) → Option α
  | [] => none
  | p :: rest => if p.1 = k then some p.2 else dictLookup k rest

/-- Python `d[k] = v`: replace the value if `k` is present, else append. -/
def dictSet {κ α : Type} [DecidableEq κ] (k : κ) (v : α) : List (κ × α) → List (κ × α)
  | [] => [(k, v)]
  | p :: rest => if p.1 = k then (k, v) :: rest else p :: dictSet k v rest

/-- Python `del d[k]` / `d.pop(k)`: drop the (unique) entry for `k`. -/
def dictDel {κ α : Type} [DecidableEq κ] (k : κ) : List (κ × α) → List (κ × α)
  | [] => []
  | p :: rest => if p.1 = k then rest else p :: dictDel k rest

/-! ## `tuning.py` -/

/-- The three tuning classes of `tuning.py`: `EqualTemperament`, and the two
`RatioBasedTuning` subclasses `JustIntonation(key)` and `Pythagorean(key)`. -/
inductive Tuning : Type where
  | EqualTemperament : Tuning
  | JustIntonation (key : Char) : Tuning
  | Pythagorean (key : Char) : Tuning
deriving DecidableEq

/-- Source `RatioBasedTuning.NOTE_NAMES`: map note names to chromatic scale degrees. -/
def NOTE_NAMES : List (Char × ℤ) :=
  [('C', 0), ('D', 2), ('E', 4), ('F', 5), ('G', 7), ('A', 9), ('B', 11)]

/-- Python `str.upper()` restricted to a single character. -/
def upperChar (c : Char) : Char :=
  if 'a' ≤ c ∧ c ≤ 'z' then Char.ofNat (c.toNat - 32) else c

/-- Source `JustIntonation.RATIOS`: 5-limit just intonation ratios for the 12-tone
chromatic scale. -/
noncomputable def JustIntonation_RATIOS : List ℝ :=
  [1, 16/15, 9/8, 6/5, 5/4, 4/3, 45/32, 3/2, 8/5, 5/3, 9/5, 15/8]

/-- Source `Pythagorean.RATIOS`: Pythagorean tuning ratios for the 12-tone chromatic
scale, built from powers of 2 and 3. -/
noncomputable def Pythagorean_RATIOS : List ℝ :=
  [1, 256/243, 9/8, 32/27, 81/64, 4/3, 729/512, 3/2, 128/81, 27/16, 16/9, 243/128]

/-- Source `RatioBasedTuning.midi_note_number_to_frequency`, parameterised by the
subclass's `RATIOS` table and `key` field.  Mirrors the source line by line:
pitch class, key degree (with default 9 for unrecognized keys), key-relative
scale degree, table ratio, equal-tempered base frequency, and the final
substitution of the table ratio for the tempered ratio. -/
noncomputable def ratio_frequency (ratios : List ℝ) (key : Char) (note_number : ℤ) : ℝ :=
  let pitch_class : ℤ := note_number % 12
  let key_degree : ℤ := (dictLookup (upperChar key) NOTE_NAMES).getD 9
  let scale_degree : ℤ := (pitch_class - key_degree) % 12
  let r : ℝ := ratios.getD scale_degree.toNat 0
  let base_freq : ℝ := 440 * (2 : ℝ) ^ (((note_number : ℝ) - 69) / 12)
  let et_r : ℝ := (2 : ℝ) ^ ((scale_degree : ℝ) / 12)
  base_freq * (r / et_r)

/-- Modelled from the spec: `EqualTemperament.midi_note_number_to_frequency`
delegates to the external library function
`supriya.conversions.midi_note_number_to_frequency`, which is not part of this
repository; the spec gives its closed form `440 * 2^((pitch-69)/12)`. -/
noncomputable def supriya_midi_note_number_to_frequency (note_number : ℤ) : ℝ :=
  440 * (2 : ℝ) ^ (((note_number : ℝ) - 69) / 12)

/-- Dynamic dispatch of `Tuning.midi_note_number_to_frequency` over the three
tuning classes. -/
noncomputable def midi_note_number_to_frequency : Tuning → ℤ → ℝ
  | Tuning.EqualTemperament, n => supriya_midi_note_number_to_frequency n
  | Tuning.JustIntonation key, n => ratio_frequency JustIntonation_RATIOS key n
  | Tuning.Pythagorean key, n => ratio_frequency Pythagorean_RATIOS key n

/-! ## Tuning lemmas -/

lemma ratio_frequency_add_twelve (ratios : List ℝ) (key : Char) (p : ℤ) :
    ratio_frequency ratios key (p + 12) = 2 * ratio_frequency ratios key p := by
  have h1 : (p + 12) % 12 = p % 12 := by omega
  simp only [ratio_frequency, h1]
  have h2 : ((p + 12 : ℤ) : ℝ) = (p : ℝ) + 12 := by push_cast; ring
  rw [h2]
  have h3 : (((p : ℝ) + 12) - 69) / 12 = (((p : ℝ) - 69) / 12) + 1 := by ring
  rw [h3, Real.rpow_add (by norm_num : (0 : ℝ) < 2), Real.rpow_one]
  ring

lemma ratio_frequency_tonic (ratios : List ℝ) (key : Char) (p : ℤ)
    (h0 : ratios.getD 0 0 = 1)
    (hp : p % 12 = (dictLookup (upperChar key) NOTE_NAMES).getD 9) :
    ratio_frequency ratios key p = supriya_midi_note_number_to_frequency p := by
  simp only [ratio_frequency, supriya_midi_note_number_to_frequency, hp, sub_self]
  have h0' : ratios[0]?.getD 0 = 1 := by simpa [List.getD] using h0
  norm_num [h0']

/-! ## `play.py`: the polyphony manager

Calls to the external audio engine (`supriya.Server`) and to the UI
notification sink (`state_manager`) are recorded as events in append-only
logs.  A `supriya.Synth` handle is modelled as a numeric id handed out by a
counter. -/

/-- One call into the external audio engine: `server.add_synth(...)` (with the
keyword arguments of `note_on`, the fresh handle id first) or `synth.free()`. -/
inductive EngineEvent : Type where
  | addSynth (id : ℕ) (add_action : String) (amplitude : ℝ) (frequency : ℝ)
      (synthdef : String) (target_node : Option ℕ) : EngineEvent
  | free (id : ℕ) : EngineEvent

/-- One call into the UI notification sink (`state_manager`). -/
inductive StateNotification : Type where
  | add_note (note_number : ℤ) (frequency : ℝ) (velocity : ℤ) : StateNotification
  | remove_note (note_number : ℤ) : StateNotification

/-- The `MusicTheory` dataclass: the active tuning and synthdef selection. -/
structure MusicTheory : Type where
  tuning : Tuning
  synthdef : String

/-- The `PolyphonyManager` dataclass.  `notes` is the registry dict mapping MIDI
note numbers to synth handles; `engine` and `notifications` log the calls to
`self.server` and `self.state_manager`; `nextId` is the supply of fresh synth
handles. -/
structure PolyphonyManager : Type where
  theory : MusicTheory
  notes : List (ℤ × ℕ)
  target_node : Option ℕ
  add_action : String
  engine : List EngineEvent
  notifications : List StateNotification
  nextId : ℕ

/-- Modelled from the spec: `supriya.conversions.midi_velocity_to_amplitude`
is an external library function (a fixed monotonic velocity→amplitude curve),
not part of this repository. -/
noncomputable def midi_velocity_to_amplitude (velocity : ℤ) : ℝ :=
  (velocity : ℝ) / 127

/-- Source `PolyphonyManager.note_on`: bail if the note is already started, else
compute frequency and amplitude, create a synth, store its handle in the
registry, and notify the UI. -/
noncomputable def note_on (s : PolyphonyManager) (note_number velocity : ℤ) :
    PolyphonyManager :=
  if (dictLookup note_number s.notes).isSome then s
  else
    let frequency := midi_note_number_to_frequency s.theory.tuning note_number
    let amplitude := midi_velocity_to_amplitude velocity
    { s with
      notes := dictSet note_number s.nextId s.notes
      engine := s.engine ++
        [EngineEvent.addSynth s.nextId s.add_action amplitude frequency
          s.theory.synthdef s.target_node]
      nextId := s.nextId + 1
      notifications := s.notifications ++
        [StateNotification.add_note note_number frequency velocity] }

/-- Source `PolyphonyManager.note_off`: bail if the note is not sounding, else pop
the synth out of the registry, free it, and notify the UI. -/
def note_off (s : PolyphonyManager) (note_number : ℤ) : PolyphonyManager :=
  match dictLookup note_number s.notes with
  | none => s
  | some synth =>
      { s with
        notes := dictDel note_number s.notes
        engine := s.engine ++ [EngineEvent.free synth]
        notifications := s.notifications ++
          [StateNotification.remove_note note_number] }

/-- Source `PolyphonyManager.free_all`: free every synth currently in the registry
(the registry dict itself is not modified by the source). -/
def free_all (s : PolyphonyManager) : PolyphonyManager :=
  { s with engine := s.engine ++ s.notes.map (fun p => EngineEvent.free p.2) }

/-- Constant `rtmidi.midiconstants.NOTE_ON` (0x90). -/
def NOTE_ON : ℤ := 144

/-- Constant `rtmidi.midiconstants.NOTE_OFF` (0x80). -/
def NOTE_OFF : ℤ := 128

/-- Source `MidiHandler.handle` in `play.py`: route a raw MIDI event to
`note_on`/`note_off` on the polyphony manager. -/
noncomputable def MidiHandler_handle (func note_number velocity : ℤ)
    (s : PolyphonyManager) : PolyphonyManager :=
  if NOTE_ON ≤ func ∧ func < NOTE_ON + 16 then
    if velocity = 0 then note_off s note_number
    else note_on s note_number velocity
  else if NOTE_OFF ≤ func ∧ func < NOTE_OFF + 16 then
    note_off s note_number
  else s

/-! ## Helper lemmas about the polyphony manager -/

lemma note_on_of_isSome (s : PolyphonyManager) (n v : ℤ)
    (h : (dictLookup n s.notes).isSome) : note_on s n v = s := by
  simp [note_on, h]

lemma note_off_of_none (s : PolyphonyManager) (n : ℤ)
    (h : dictLookup n s.notes = none) : note_off s n = s := by
  simp [note_off, h]

lemma note_on_theory (s : PolyphonyManager) (n v : ℤ) :
    (note_on s n v).theory = s.theory := by
  unfold note_on
  split <;> rfl

lemma note_on_notes_of_none (s : PolyphonyManager) (n v : ℤ)
    (h : dictLookup n s.notes = none) :
    (note_on s n v).notes = dictSet n s.nextId s.notes := by
  simp [note_on, h]

lemma dictLookup_dictSet_self {κ α : Type} [DecidableEq κ] (k : κ) (v : α)
    (l : List (κ × α)) : dictLookup k (dictSet k v l) = some v := by
  induction l with
  | nil => simp [dictSet, dictLookup]
  | cons p rest ih =>
      by_cases h : p.1 = k
      · simp [dictSet, dictLookup, h]
      · simp [dictSet, dictLookup, h, ih]

lemma dictDel_dictSet_of_none {κ α : Type} [DecidableEq κ] (k : κ) (v : α)
    (l : List (κ × α)) (h : dictLookup k l = none) :
    dictDel k (dictSet k v l) = l := by
  induction l with
  | nil => simp [dictSet, dictDel]
  | cons p rest ih =>
      by_cases hp : p.1 = k
      · simp [dictLookup, hp] at h
      · simp only [dictLookup, hp, if_neg] at h
        simp [dictSet, dictDel, hp, ih h]

lemma dictLookup_none_countP {κ α : Type} [DecidableEq κ] (k : κ)
    (l : List (κ × α)) (h : dictLookup k l = none) :
    l.countP (fun p => p.1 = k) = 0 := by
  induction l with
  | nil => simp
  | cons p rest ih =>
      by_cases hp : p.1 = k
      · simp [dictLookup, hp] at h
      · simp only [dictLookup, hp, if_neg] at h
        simp [List.countP_cons, hp, ih h]

lemma dictSet_countP_of_none {κ α : Type} [DecidableEq κ] (k : κ) (v : α)
    (l : List (κ × α)) (h : dictLookup k l = none) :
    (dictSet k v l).countP (fun p => p.1 = k) = 1 := by
  induction l with
  | nil => simp [dictSet, List.countP_cons]
  | cons p rest ih =>
      by_cases hp : p.1 = k
      · simp [dictLookup, hp] at h
      · simp only [dictLookup, hp, if_neg] at h
        simp [dictSet, List.countP_cons, hp, ih h]

/-! ## `input.py` and `tui.py`: the QWERTY adapter and the Textual app

The app state gathers the fields the message handlers touch: the polyphony
manager, the `QwertyHandler` passed along with each key message (its `octave`
and `presses_to_note_numbers` dict), the app's reactive `notes` dict for the
note-display panel (note number → frequency/velocity), and the reactive
`current_octave` / `current_tuning` display values. -/

/-- The QWERTY scale-position string `"awsedftgyhujkolp;'"` as a list of
characters (the final character is the apostrophe). -/
def scaleString : List Char :=
  ['a', 'w', 's', 'e', 'd', 'f', 't', 'g', 'y', 'h', 'u', 'j', 'k', 'o', 'l',
   'p', ';', Char.ofNat 39]

/-- Python `str.index`: the index of the first occurrence of `key`, `none`
(the `ValueError` branch) if absent. -/
def strIndex (key : Char) : List Char → Option ℕ
  | [] => none
  | c :: rest => if c = key then some 0 else (strIndex key rest).map (· + 1)

/-- Source `QwertyHandler.qwerty_key_to_pitch_number`: Python
`"awsedftgyhujkolp;'".index(key)`, with the `ValueError` branch returning
`None`. -/
def qwerty_key_to_pitch_number (key : Char) : Option ℤ :=
  (strIndex key scaleString).map Int.ofNat

/-- The mutable state of a `QwertyHandler` instance. -/
structure QwertyHandler : Type where
  octave : ℤ
  presses_to_note_numbers : List (Char × ℤ)

/-- The state of `SerpentoneApp` that the message handlers touch.  `notes` is
the app's reactive note-display dict (note number → (frequency, velocity)). -/
structure AppState : Type where
  polyphony_manager : PolyphonyManager
  input_handler : QwertyHandler
  notes : List (ℤ × (ℝ × ℤ))
  current_octave : ℤ
  current_tuning : String

/-- Source `SerpentoneApp.on_serpentone_app_handle_midi_event`: route a raw MIDI
event, updating the polyphony manager and the note-display dict. -/
noncomputable def handle_midi_event (func note_number velocity : ℤ)
    (st : AppState) : AppState :=
  if NOTE_ON ≤ func ∧ func < NOTE_ON + 16 then
    if velocity = 0 then
      { st with
        polyphony_manager := note_off st.polyphony_manager note_number
        notes := dictDel note_number st.notes }
    else
      let pm := note_on st.polyphony_manager note_number velocity
      let frequency := midi_note_number_to_frequency pm.theory.tuning note_number
      { st with
        polyphony_manager := pm
        notes := dictSet note_number (frequency, velocity) st.notes }
  else if NOTE_OFF ≤ func ∧ func < NOTE_OFF + 16 then
    { st with
      polyphony_manager := note_off st.polyphony_manager note_number
      notes := dictDel note_number st.notes }
  else st

/-- Source `SerpentoneApp.on_serpentone_app_handle_key_press`: octave keys clamp the
adapter's octave into `[0, 10]`; a note key not already held is translated
through the scale string (the `tui.py` handler inlines the same string as
`qwerty_key_to_pitch_number`), its note number is stashed in
`presses_to_note_numbers`, the note is started with fixed velocity 64, and the
note-display dict is updated. -/
noncomputable def handle_key_press (key_char : Char) (st : AppState) : AppState :=
  if key_char = 'z' then
    let o := max (st.input_handler.octave - 1) 0
    { st with
      input_handler := { st.input_handler with octave := o }
      current_octave := o }
  else if key_char = 'x' then
    let o := min (st.input_handler.octave + 1) 10
    { st with
      input_handler := { st.input_handler with octave := o }
      current_octave := o }
  else if (dictLookup key_char st.input_handler.presses_to_note_numbers).isSome then
    st
  else
    match qwerty_key_to_pitch_number key_char with
    | none => st
    | some pitch =>
        let note_number := pitch + st.input_handler.octave * 12
        let velocity : ℤ := 64
        let pm := note_on st.polyphony_manager note_number velocity
        let frequency := midi_note_number_to_frequency pm.theory.tuning note_number
        { st with
          input_handler := { st.input_handler with
            presses_to_note_numbers :=
              dictSet key_char note_number st.input_handler.presses_to_note_numbers }
          polyphony_manager := pm
          notes := dictSet note_number (frequency, velocity) st.notes }

/-- Source `SerpentoneApp.on_serpentone_app_handle_key_release`: bail if the key is
not currently held, else pop the stashed note number, stop that note, and drop
it from the note-display dict. -/
def handle_key_release (key_char : Char) (st : AppState) : AppState :=
  match dictLookup key_char st.input_handler.presses_to_note_numbers with
  | none => st
  | some note_number =>
      { st with
        input_handler := { st.input_handler with
          presses_to_note_numbers :=
            dictDel key_char st.input_handler.presses_to_note_numbers }
        polyphony_manager := note_off st.polyphony_manager note_number
        notes := dictDel note_number st.notes }

/-- Source `SerpentoneApp.on_key`: the tuning-selection keys replace the active
tuning; `'c'`/`'v'` only move the synth ListView cursor (the selection itself
lands through `activate_synth` below); all other characters do nothing. -/
def on_key (c : Char) (st : AppState) : AppState :=
  if c = 'c' then st
  else if c = 'v' then st
  else if c = 'n' then
    { st with
      polyphony_manager := { st.polyphony_manager with
        theory := { st.polyphony_manager.theory with
          tuning := Tuning.JustIntonation 'A' } }
      current_tuning := "JustA" }
  else if c = 'm' then
    { st with
      polyphony_manager := { st.polyphony_manager with
        theory := { st.polyphony_manager.theory with
          tuning := Tuning.EqualTemperament } }
      current_tuning := "EqualTemperament" }
  else if c = ',' then
    { st with
      polyphony_manager := { st.polyphony_manager with
        theory := { st.polyphony_manager.theory with
          tuning := Tuning.JustIntonation 'C' } }
      current_tuning := "JustC" }
  else if c = '.' then
    { st with
      polyphony_manager := { st.polyphony_manager with
        theory := { st.polyphony_manager.theory with
          tuning := Tuning.Pythagorean 'C' } }
      current_tuning := "PythC" }
  else if c = '/' then
    { st with
      polyphony_manager := { st.polyphony_manager with
        theory := { st.polyphony_manager.theory with
          tuning := Tuning.Pythagorean 'A' } }
      current_tuning := "PythA" }
  else st

/-- Source `SerpentoneApp.activate_synth`: select the synth named by a ListView item
(`polyphony_manager.theory.synthdef = getattr(synths, synth_name)`). -/
def activate_synth (synth_name : String) (st : AppState) : AppState :=
  { st with
    polyphony_manager := { st.polyphony_manager with
      theory := { st.polyphony_manager.theory with synthdef := synth_name } } }

/-- The initial wiring of `main.py run()`: equal temperament, the `default`
synthdef, an empty registry, and a `QwertyHandler` starting at octave 5. -/
def initPoly : PolyphonyManager :=
  { theory := { tuning := Tuning.EqualTemperament, synthdef := "default" }
    notes := []
    target_node := none
    add_action := "ADD_TO_HEAD"
    engine := []
    notifications := []
    nextId := 0 }

/-- The initial app state of `main.py run()`. -/
def initAppState : AppState :=
  { polyphony_manager := initPoly
    input_handler := { octave := 5, presses_to_note_numbers := [] }
    notes := []
    current_octave := 5
    current_tuning := "EqualTemperament" }

/-! ## Claims C1 to C5 -/

/-- A registry state with one sounding voice (pitch 60, synth handle 0),
used to exercise `free_all`. -/
def c1State : PolyphonyManager := { initPoly with notes := [(60, 0)], nextId := 1 }

/-- Claim C1, counterexample: `free_all` does not empty the registry — on a
state with a voice for pitch 60, the registry still contains that entry
afterwards. -/
theorem free_all_keeps_registry_counterexample : (free_all c1State).notes ≠ [] := by
  decide

/-- Claim C1 (amended): after `free_all` runs on any registry state, every
voice in the registry has been released by the engine (one `free` call per
registered synth), but the registry is NOT emptied — it retains all its pitch
entries (and the notification stream is untouched); consequently a stale
`note_on` for any registered pitch remains a no-op. -/
theorem free_all_releases_all_voices (s : PolyphonyManager) :
    (free_all s).notes = s.notes ∧
    (free_all s).engine = s.engine ++ s.notes.map (fun p => EngineEvent.free p.2) ∧
    (free_all s).notifications = s.notifications ∧
    (∀ n v, (dictLookup n s.notes).isSome → note_on (free_all s) n v = free_all s) := by
  refine ⟨rfl, rfl, rfl, fun n v h => ?_⟩
  exact note_on_of_isSome _ n v (by simpa [free_all] using h)

/-- Claim C1, witness: on the one-voice state, `free_all` keeps the registry
entry, logs exactly one engine `free` call, and a stale `note_on` for pitch 60
afterwards is a no-op. -/
theorem free_all_releases_all_voices_witness :
    (free_all c1State).notes = [(60, 0)] ∧
    (free_all c1State).engine = [EngineEvent.free 0] ∧
    note_on (free_all c1State) 60 100 = free_all c1State :=
  ⟨(free_all_releases_all_voices c1State).1,
   (free_all_releases_all_voices c1State).2.1,
   (free_all_releases_all_voices c1State).2.2.2 60 100 (by decide)⟩

/-- A registry state with one sounding voice for pitch 60, used to exercise
the duplicate-`note_on` no-op. -/
def c2State : PolyphonyManager := { initPoly with notes := [(60, 0)], nextId := 1 }

/-- Claim C2: `note_on` for a pitch already present and `note_off` for a pitch
absent are silent idempotent no-ops (the whole manager state — registry,
engine log, and notification log — is unchanged), and calling
`note_on 60 100` twice in a row leaves exactly one voice registered for pitch
60 and emits exactly one note-started notification. -/
theorem note_on_note_off_idempotent (s : PolyphonyManager) (n v : ℤ) :
    ((dictLookup n s.notes).isSome → note_on s n v = s) ∧
    (dictLookup n s.notes = none → note_off s n = s) ∧
    (dictLookup 60 s.notes = none →
      note_on (note_on s 60 100) 60 100 = note_on s 60 100 ∧
      (note_on (note_on s 60 100) 60 100).notes.countP (fun p => p.1 = 60) = 1 ∧
      (note_on (note_on s 60 100) 60 100).notifications =
        s.notifications ++ [StateNotification.add_note 60
          (midi_note_number_to_frequency s.theory.tuning 60) 100]) := by
  refine ⟨note_on_of_isSome s n v, note_off_of_none s n, fun h => ?_⟩
  have h1 : (note_on s 60 100).notes = dictSet 60 s.nextId s.notes :=
    note_on_notes_of_none s 60 100 h
  have h2 : (dictLookup 60 (note_on s 60 100).notes).isSome := by
    rw [h1, dictLookup_dictSet_self]; rfl
  refine ⟨note_on_of_isSome _ 60 100 h2, ?_, ?_⟩
  · rw [note_on_of_isSome _ 60 100 h2, h1]
    exact dictSet_countP_of_none 60 s.nextId s.notes h
  · rw [note_on_of_isSome _ 60 100 h2]
    simp [note_on, h]

/-- Claim C2, witness: a duplicate `note_on` on a state already sounding pitch
60 is a no-op; a `note_off` for a pitch never started is a no-op; and the
double `note_on 60 100` from the initial state registers exactly one voice and
emits exactly one note-started notification. -/
theorem note_on_note_off_idempotent_witness :
    note_on c2State 60 100 = c2State ∧
    note_off initPoly 61 = initPoly ∧
    (note_on (note_on initPoly 60 100) 60 100 = note_on initPoly 60 100 ∧
     (note_on (note_on initPoly 60 100) 60 100).notes.countP (fun p => p.1 = 60) = 1 ∧
     (note_on (note_on initPoly 60 100) 60 100).notifications =
       initPoly.notifications ++ [StateNotification.add_note 60
         (midi_note_number_to_frequency initPoly.theory.tuning 60) 100]) :=
  ⟨(note_on_note_off_idempotent c2State 60 100).1 (by decide),
   (note_on_note_off_idempotent initPoly 61 0).2.1 (by decide),
   (note_on_note_off_idempotent initPoly 60 100).2.2 (by decide)⟩

/-- Claim C3: for both ratio-based tunings (`JustIntonation` and
`Pythagorean`), with any key, frequency doubles when the pitch increases
by 12. -/
theorem ratio_based_octave_doubling (key : Char) (p : ℤ) :
    midi_note_number_to_frequency (Tuning.JustIntonation key) (p + 12) =
      2 * midi_note_number_to_frequency (Tuning.JustIntonation key) p ∧
    midi_note_number_to_frequency (Tuning.Pythagorean key) (p + 12) =
      2 * midi_note_number_to_frequency (Tuning.Pythagorean key) p :=
  ⟨ratio_frequency_add_twelve JustIntonation_RATIOS key p,
   ratio_frequency_add_twelve Pythagorean_RATIOS key p⟩

/-- Claim C4: for both ratio-based tunings with any recognized key, a pitch
whose pitch class equals the key's tonic degree gets exactly the
equal-temperament frequency `440 * 2^((p-69)/12)`. -/
theorem ratio_based_tonic_matches_et (k : Char) (p : ℤ)
    (_hk : (dictLookup (upperChar k) NOTE_NAMES).isSome)
    (hp : p % 12 = (dictLookup (upperChar k) NOTE_NAMES).getD 9) :
    midi_note_number_to_frequency (Tuning.JustIntonation k) p =
      440 * (2 : ℝ) ^ (((p : ℝ) - 69) / 12) ∧
    midi_note_number_to_frequency (Tuning.Pythagorean k) p =
      440 * (2 : ℝ) ^ (((p : ℝ) - 69) / 12) :=
  ⟨ratio_frequency_tonic JustIntonation_RATIOS k p
      (by simp [JustIntonation_RATIOS, List.getD]) hp,
   ratio_frequency_tonic Pythagorean_RATIOS k p
      (by simp [Pythagorean_RATIOS, List.getD]) hp⟩

/-- Claim C4, witness: key `'A'` (tonic degree 9) and pitch 69 (pitch class
9): both ratio-based tunings give exactly the equal-temperament A4. -/
theorem ratio_based_tonic_matches_et_witness :
    midi_note_number_to_frequency (Tuning.JustIntonation 'A') 69 =
      440 * (2 : ℝ) ^ ((((69 : ℤ) : ℝ) - 69) / 12) ∧
    midi_note_number_to_frequency (Tuning.Pythagorean 'A') 69 =
      440 * (2 : ℝ) ^ ((((69 : ℤ) : ℝ) - 69) / 12) :=
  ratio_based_tonic_matches_et 'A' 69 (by decide) (by decide)

/-- Claim C5: `MidiHandler.handle` routes a Note-On status (0x90–0x9F, all 16
channels) with velocity 0 to `note_off`, with nonzero velocity to `note_on`;
a Note-Off status (0x80–0x8F) to `note_off` regardless of velocity; and any
other status byte to neither. -/
theorem midi_event_routing (func note velocity : ℤ) (s : PolyphonyManager) :
    (144 ≤ func → func ≤ 159 → velocity = 0 →
      MidiHandler_handle func note velocity s = note_off s note) ∧
    (144 ≤ func → func ≤ 159 → velocity ≠ 0 →
      MidiHandler_handle func note velocity s = note_on s note velocity) ∧
    (128 ≤ func → func ≤ 143 →
      MidiHandler_handle func note velocity s = note_off s note) ∧
    (¬(128 ≤ func ∧ func ≤ 159) →
      MidiHandler_handle func note velocity s = s) := by
  refine ⟨fun h1 h2 h3 => ?_, fun h1 h2 h3 => ?_, fun h1 h2 => ?_, fun h => ?_⟩ <;>
    simp only [MidiHandler_handle, NOTE_ON, NOTE_OFF] <;>
    split_ifs <;> first | rfl | omega

/-- Claim C5, witness: one concrete event in each routing class — Note-On
with velocity 0, Note-On (channel 6) with nonzero velocity, Note-Off, and a
non-note status byte (0xC0). -/
theorem midi_event_routing_witness :
    MidiHandler_handle 144 60 0 initPoly = note_off initPoly 60 ∧
    MidiHandler_handle 150 61 99 initPoly = note_on initPoly 61 99 ∧
    MidiHandler_handle 128 60 50 initPoly = note_off initPoly 60 ∧
    MidiHandler_handle 192 60 50 initPoly = initPoly :=
  ⟨(midi_event_routing 144 60 0 initPoly).1 (by norm_num) (by norm_num) rfl,
   (midi_event_routing 150 61 99 initPoly).2.1 (by norm_num) (by norm_num) (by norm_num),
   (midi_event_routing 128 60 50 initPoly).2.2.1 (by norm_num) (by norm_num),
   (midi_event_routing 192 60 50 initPoly).2.2.2 (by norm_num)⟩

/-! ## Helper lemmas about the app-layer handlers -/

lemma strIndex_lt_length (key : Char) (l : List Char) (j : ℕ)
    (h : strIndex key l = some j) : j < l.length := by
  induction l generalizing j with
  | nil => simp [strIndex] at h
  | cons c rest ih =>
      by_cases hc : c = key
      · simp only [strIndex, if_pos hc, Option.some.injEq] at h
        simp [← h]
      · simp only [strIndex, if_neg hc, Option.map_eq_some'] at h
        obtain ⟨a, ha, rfl⟩ := h
        have := ih a ha
        simp only [List.length_cons]
        omega

lemma qwerty_pitch_bounds (key : Char) (i : ℤ)
    (h : qwerty_key_to_pitch_number key = some i) : 0 ≤ i ∧ i ≤ 17 := by
  unfold qwerty_key_to_pitch_number at h
  cases hs : strIndex key scaleString with
  | none => rw [hs] at h; exact Option.noConfusion h
  | some j =>
      rw [hs, Option.map_some'] at h
      obtain rfl : (j : ℤ) = i := Option.some.inj h
      have hlt := strIndex_lt_length key scaleString j hs
      have h18 : scaleString.length = 18 := by decide
      rw [h18] at hlt
      omega

lemma handle_key_press_octave (c : Char) (st : AppState) :
    (handle_key_press c st).input_handler.octave =
      if c = 'z' then max (st.input_handler.octave - 1) 0
      else if c = 'x' then min (st.input_handler.octave + 1) 10
      else st.input_handler.octave := by
  unfold handle_key_press
  split_ifs with h1 h2 h3
  · rfl
  · rfl
  · rfl
  · cases h : qwerty_key_to_pitch_number c <;> rfl

lemma handle_key_release_octave (c : Char) (st : AppState) :
    (handle_key_release c st).input_handler.octave = st.input_handler.octave := by
  unfold handle_key_release
  cases h : dictLookup c st.input_handler.presses_to_note_numbers <;> rfl

lemma handle_key_release_unheld (c : Char) (st : AppState)
    (h : dictLookup c st.input_handler.presses_to_note_numbers = none) :
    handle_key_release c st = st := by
  simp [handle_key_release, h]

lemma handle_key_press_zx (c : Char) (st : AppState) (h : c = 'z' ∨ c = 'x') :
    (handle_key_press c st).input_handler.presses_to_note_numbers =
      st.input_handler.presses_to_note_numbers ∧
    (handle_key_press c st).polyphony_manager = st.polyphony_manager := by
  rcases h with rfl | rfl <;> exact ⟨rfl, rfl⟩

/-- A burst of key presses delivered in order to the app. -/
noncomputable def applyKeys (cs : List Char) (st : AppState) : AppState :=
  cs.foldl (fun s c => handle_key_press c s) st

lemma applyKeys_cons (c : Char) (cs : List Char) (st : AppState) :
    applyKeys (c :: cs) st = applyKeys cs (handle_key_press c st) := rfl

lemma applyKeys_zx (cs : List Char) (st : AppState)
    (h : ∀ c ∈ cs, c = 'z' ∨ c = 'x') :
    (applyKeys cs st).input_handler.presses_to_note_numbers =
      st.input_handler.presses_to_note_numbers ∧
    (applyKeys cs st).polyphony_manager = st.polyphony_manager := by
  induction cs generalizing st with
  | nil => exact ⟨rfl, rfl⟩
  | cons c cs ih =>
      have h1 := handle_key_press_zx c st (h c (List.mem_cons_self c cs))
      have h2 := ih (handle_key_press c st)
        (fun c' hc' => h c' (List.mem_cons_of_mem c hc'))
      rw [applyKeys_cons]
      exact ⟨h2.1.trans h1.1, h2.2.trans h1.2⟩

lemma handle_key_press_note (st : AppState) (key : Char) (i : ℤ)
    (hkey : qwerty_key_to_pitch_number key = some i)
    (habs : dictLookup key st.input_handler.presses_to_note_numbers = none) :
    handle_key_press key st =
      { st with
        input_handler := { st.input_handler with
          presses_to_note_numbers := dictSet key (i + st.input_handler.octave * 12)
            st.input_handler.presses_to_note_numbers }
        polyphony_manager := note_on st.polyphony_manager
          (i + st.input_handler.octave * 12) 64
        notes := dictSet (i + st.input_handler.octave * 12)
          (midi_note_number_to_frequency
            (note_on st.polyphony_manager
              (i + st.input_handler.octave * 12) 64).theory.tuning
            (i + st.input_handler.octave * 12), 64) st.notes } := by
  have hz : key ≠ 'z' := by
    rintro rfl
    have : qwerty_key_to_pitch_number 'z' = none := by decide
    rw [this] at hkey
    exact Option.noConfusion hkey
  have hx : key ≠ 'x' := by
    rintro rfl
    have : qwerty_key_to_pitch_number 'x' = none := by decide
    rw [this] at hkey
    exact Option.noConfusion hkey
  simp only [handle_key_press, if_neg hz, if_neg hx, habs, Option.isSome_none,
    Bool.false_eq_true, if_false, hkey]

/-! ## Claims C6 to C8 -/

/-- Claim C6, counterexample: the scale-position string has 18 symbols, not
12 — the key `';'` maps to scale position 16, which is outside 0–11, and at
octave 10 its note number is 136, outside the PitchNumber range [0, 127]. -/
theorem qwerty_scale_position_counterexample :
    qwerty_key_to_pitch_number ';' = some 16 ∧ ¬((16 : ℤ) ≤ 11) ∧
    (16 : ℤ) + 10 * 12 = 136 ∧ ¬((136 : ℤ) ≤ 127) := by
  decide

/-- Claim C6 (amended): every QWERTY note key maps through the fixed
18-symbol scale-position string to a scale position in 0–17; pressing a note
key that is not already held emits NoteOn with note number
`scale position + octave * 12` and fixed velocity 64, recording the note
number under the key; with the octave in [0, 10] the note number lies in
[0, 137] (and may therefore exceed 127).  The particular scenario holds:
scale position 4 at octave 5 yields NoteOn(pitch 64, velocity 64). -/
theorem qwerty_key_press_emits_note_on (st : AppState) (key : Char) (i : ℤ)
    (hkey : qwerty_key_to_pitch_number key = some i)
    (habs : dictLookup key st.input_handler.presses_to_note_numbers = none) :
    0 ≤ i ∧ i ≤ 17 ∧
    (handle_key_press key st).polyphony_manager =
      note_on st.polyphony_manager (i + st.input_handler.octave * 12) 64 ∧
    dictLookup key (handle_key_press key st).input_handler.presses_to_note_numbers =
      some (i + st.input_handler.octave * 12) ∧
    (0 ≤ st.input_handler.octave → st.input_handler.octave ≤ 10 →
      0 ≤ i + st.input_handler.octave * 12 ∧
        i + st.input_handler.octave * 12 ≤ 137) := by
  obtain ⟨h0, h17⟩ := qwerty_pitch_bounds key i hkey
  have hnote := handle_key_press_note st key i hkey habs
  refine ⟨h0, h17, ?_, ?_, fun ho1 ho2 => ⟨by omega, by omega⟩⟩
  · rw [hnote]
  · rw [hnote]
    exact dictLookup_dictSet_self key _ _

/-- Claim C6, witness: pressing `'d'` (scale position 4) from the initial
state (octave 5) starts note 64 at velocity 64 and records it under the
key. -/
theorem qwerty_key_press_emits_note_on_witness :
    (handle_key_press 'd' initAppState).polyphony_manager =
      note_on initAppState.polyphony_manager 64 64 ∧
    dictLookup 'd'
      (handle_key_press 'd' initAppState).input_handler.presses_to_note_numbers =
      some 64 := by
  have h := qwerty_key_press_emits_note_on initAppState 'd' 4 (by decide) rfl
  exact ⟨h.2.2.1, h.2.2.2.1⟩

/-- Claim C7: releasing a held note key issues `note_off` for exactly the
note number recorded at press time (octave in effect at the press), even
after any burst of octave-change keys while the key was held; the release
removes the key's entry (restoring the held-key dict); and releasing a key
with no recorded entry does nothing. -/
theorem qwerty_release_uses_cached_pitch (st : AppState) (key : Char) (i : ℤ)
    (cs : List Char)
    (hkey : qwerty_key_to_pitch_number key = some i)
    (habs : dictLookup key st.input_handler.presses_to_note_numbers = none)
    (hcs : ∀ c ∈ cs, c = 'z' ∨ c = 'x') :
    (handle_key_release key (applyKeys cs (handle_key_press key st))).polyphony_manager =
      note_off (applyKeys cs (handle_key_press key st)).polyphony_manager
        (i + st.input_handler.octave * 12) ∧
    (handle_key_release key
        (applyKeys cs (handle_key_press key st))).input_handler.presses_to_note_numbers =
      st.input_handler.presses_to_note_numbers ∧
    (∀ st' : AppState,
      dictLookup key st'.input_handler.presses_to_note_numbers = none →
        handle_key_release key st' = st') := by
  have hnote := handle_key_press_note st key i hkey habs
  have hpresses1 : (handle_key_press key st).input_handler.presses_to_note_numbers =
      dictSet key (i + st.input_handler.octave * 12)
        st.input_handler.presses_to_note_numbers := by rw [hnote]
  have h2 := applyKeys_zx cs (handle_key_press key st) hcs
  have hpresses2 :
      (applyKeys cs (handle_key_press key st)).input_handler.presses_to_note_numbers =
      dictSet key (i + st.input_handler.octave * 12)
        st.input_handler.presses_to_note_numbers := h2.1.trans hpresses1
  have hlook : dictLookup key
      (applyKeys cs (handle_key_press key st)).input_handler.presses_to_note_numbers =
      some (i + st.input_handler.octave * 12) := by
    rw [hpresses2]; exact dictLookup_dictSet_self key _ _
  refine ⟨?_, ?_, fun st' h => handle_key_release_unheld key st' h⟩
  · simp only [handle_key_release, hlook]
  · simp only [handle_key_release, hlook]
    rw [hpresses2]
    exact dictDel_dictSet_of_none key _ _ habs

/-- Claim C7, witness: press `'d'` at octave 5, change octave three times
(`'z'`, `'z'`, `'x'`), then release `'d'`: the release stops exactly note 64
and restores the empty held-key dict; releasing the unheld `'q'` is a no-op. -/
theorem qwerty_release_uses_cached_pitch_witness :
    (handle_key_release 'd'
        (applyKeys ['z', 'z', 'x'] (handle_key_press 'd' initAppState))).polyphony_manager =
      note_off
        (applyKeys ['z', 'z', 'x'] (handle_key_press 'd' initAppState)).polyphony_manager
        64 ∧
    (handle_key_release 'd'
        (applyKeys ['z', 'z', 'x']
          (handle_key_press 'd' initAppState))).input_handler.presses_to_note_numbers =
      [] ∧
    handle_key_release 'q' initAppState = initAppState := by
  have h := qwerty_release_uses_cached_pitch initAppState 'd' 4 ['z', 'z', 'x']
    (by decide) rfl (by decide)
  exact ⟨h.1, h.2.1, h.2.2 initAppState rfl⟩

/-- Claim C8: from any octave in [0, 10], `'z'` clamps downward at 0 and
`'x'` clamps upward at 10, every key press leaves the octave in [0, 10], and
key releases never change it. -/
theorem octave_state_invariant (st : AppState) (c : Char)
    (h0 : 0 ≤ st.input_handler.octave) (h10 : st.input_handler.octave ≤ 10) :
    (handle_key_press 'z' st).input_handler.octave =
      max (st.input_handler.octave - 1) 0 ∧
    (handle_key_press 'x' st).input_handler.octave =
      min (st.input_handler.octave + 1) 10 ∧
    0 ≤ (handle_key_press c st).input_handler.octave ∧
    (handle_key_press c st).input_handler.octave ≤ 10 ∧
    (handle_key_release c st).input_handler.octave = st.input_handler.octave := by
  have hoct := handle_key_press_octave c st
  refine ⟨rfl, rfl, ?_, ?_, handle_key_release_octave c st⟩
  · rw [hoct]
    split_ifs
    · exact le_max_right _ _
    · exact le_min (by omega) (by norm_num)
    · exact h0
  · rw [hoct]
    split_ifs
    · exact max_le (by omega) (by norm_num)
    · exact min_le_right _ _
    · exact h10

/-- Claim C8, witness: the invariant applied at the initial state (octave 5)
with the `'z'` key. -/
theorem octave_state_invariant_witness :
    (handle_key_press 'z' initAppState).input_handler.octave =
      max (initAppState.input_handler.octave - 1) 0 ∧
    (handle_key_press 'x' initAppState).input_handler.octave =
      min (initAppState.input_handler.octave + 1) 10 ∧
    0 ≤ (handle_key_press 'z' initAppState).input_handler.octave ∧
    (handle_key_press 'z' initAppState).input_handler.octave ≤ 10 ∧
    (handle_key_release 'z' initAppState).input_handler.octave =
      initAppState.input_handler.octave :=
  octave_state_invariant initAppState 'z' (by decide) (by decide)

/-! ## Claims C9 and C10 -/

lemma on_key_frame (c : Char) (st : AppState) :
    (on_key c st).polyphony_manager.notes = st.polyphony_manager.notes ∧
    (on_key c st).polyphony_manager.engine = st.polyphony_manager.engine ∧
    (on_key c st).polyphony_manager.notifications =
      st.polyphony_manager.notifications := by
  unfold on_key
  split_ifs <;> exact ⟨rfl, rfl, rfl⟩

/-- Claim C9: replacing the active tuning (`on_key`) or instrument selection
(`activate_synth`) leaves the voice registry, the engine call log (hence the
frequency every existing voice was created with), and the notification stream
unchanged; a `note_on` executed after the swap creates its voice with the
frequency computed from the newly selected tuning and the newly selected
synthdef. -/
theorem tuning_swap_leaves_voices_unchanged (c : Char) (synth_name : String)
    (st : AppState) (n v : ℤ) :
    (on_key c st).polyphony_manager.notes = st.polyphony_manager.notes ∧
    (on_key c st).polyphony_manager.engine = st.polyphony_manager.engine ∧
    (on_key c st).polyphony_manager.notifications =
      st.polyphony_manager.notifications ∧
    (activate_synth synth_name st).polyphony_manager.notes =
      st.polyphony_manager.notes ∧
    (activate_synth synth_name st).polyphony_manager.engine =
      st.polyphony_manager.engine ∧
    (activate_synth synth_name st).polyphony_manager.notifications =
      st.polyphony_manager.notifications ∧
    (dictLookup n (on_key c st).polyphony_manager.notes = none →
      (note_on (on_key c st).polyphony_manager n v).engine =
        (on_key c st).polyphony_manager.engine ++
          [EngineEvent.addSynth (on_key c st).polyphony_manager.nextId
            (on_key c st).polyphony_manager.add_action
            (midi_velocity_to_amplitude v)
            (midi_note_number_to_frequency
              (on_key c st).polyphony_manager.theory.tuning n)
            (on_key c st).polyphony_manager.theory.synthdef
            (on_key c st).polyphony_manager.target_node]) := by
  obtain ⟨h1, h2, h3⟩ := on_key_frame c st
  refine ⟨h1, h2, h3, rfl, rfl, rfl, fun h => ?_⟩
  simp [note_on, h]

/-- An app state with one sounding voice (pitch 60), used to exercise the
tuning swap. -/
def c9State : AppState :=
  { initAppState with
    polyphony_manager := { initPoly with notes := [(60, 0)], nextId := 1 } }

/-- Claim C9, witness: selecting `JustIntonation('A')` with `'n'` on a state
sounding pitch 60 leaves the registry untouched, and a subsequent `note_on`
for pitch 69 creates its voice from the newly selected tuning. -/
theorem tuning_swap_leaves_voices_unchanged_witness :
    (on_key 'n' c9State).polyphony_manager.notes = [(60, 0)] ∧
    (note_on (on_key 'n' c9State).polyphony_manager 69 100).engine =
      (on_key 'n' c9State).polyphony_manager.engine ++
        [EngineEvent.addSynth (on_key 'n' c9State).polyphony_manager.nextId
          (on_key 'n' c9State).polyphony_manager.add_action
          (midi_velocity_to_amplitude 100)
          (midi_note_number_to_frequency
            (on_key 'n' c9State).polyphony_manager.theory.tuning 69)
          (on_key 'n' c9State).polyphony_manager.theory.synthdef
          (on_key 'n' c9State).polyphony_manager.target_node] := by
  have h := tuning_swap_leaves_voices_unchanged 'n' "simple_sine" c9State 69 100
  exact ⟨h.1, h.2.2.2.2.2.2 (by decide)⟩

/-- Claim C10: in the TUI path, a MIDI Note-On for a pitch already sounding
leaves the whole polyphony manager (registry, engine log, notifications)
unchanged, but the note-display entry for that pitch is unconditionally
overwritten with a frequency recomputed from the currently selected tuning
and with the new velocity. -/
theorem midi_duplicate_overwrites_display (st : AppState) (func n v : ℤ)
    (h1 : 144 ≤ func) (h2 : func ≤ 159) (hv : v ≠ 0)
    (hmem : (dictLookup n st.polyphony_manager.notes).isSome) :
    (handle_midi_event func n v st).polyphony_manager = st.polyphony_manager ∧
    dictLookup n (handle_midi_event func n v st).notes =
      some (midi_note_number_to_frequency st.polyphony_manager.theory.tuning n, v) := by
  have hON : NOTE_ON ≤ func ∧ func < NOTE_ON + 16 := by unfold NOTE_ON; omega
  have hno : note_on st.polyphony_manager n v = st.polyphony_manager :=
    note_on_of_isSome _ n v hmem
  constructor
  · simp only [handle_midi_event, if_pos hON, if_neg hv, hno]
  · simp only [handle_midi_event, if_pos hON, if_neg hv, hno]
    exact dictLookup_dictSet_self n _ _

lemma just_C_69_value :
    midi_note_number_to_frequency (Tuning.JustIntonation 'C') 69 =
      440 * ((5 / 3 : ℝ) / (2 : ℝ) ^ ((9 : ℝ) / 12)) := by
  have e1 : ((69 : ℤ) % 12) = 9 := by decide
  have e2 : ((dictLookup (upperChar 'C') NOTE_NAMES).getD 9 : ℤ) = 0 := by decide
  show ratio_frequency JustIntonation_RATIOS 'C' 69 = _
  simp only [ratio_frequency, e1, e2, sub_zero]
  have e3 : ((9 : ℤ) % 12) = 9 := by decide
  rw [e3]
  have e4 : JustIntonation_RATIOS.getD ((9 : ℤ)).toNat 0 = 5 / 3 := by
    rw [show ((9 : ℤ)).toNat = 9 from rfl]
    simp [JustIntonation_RATIOS, List.getD]
  rw [e4]
  have e5 : (((69 : ℤ) : ℝ) - 69) / 12 = 0 := by norm_num
  rw [e5, Real.rpow_zero]
  have e6 : (((9 : ℤ) : ℝ)) = (9 : ℝ) := by norm_num
  rw [e6]
  ring

lemma et_69_value : midi_note_number_to_frequency Tuning.EqualTemperament 69 = 440 := by
  show supriya_midi_note_number_to_frequency 69 = 440
  unfold supriya_midi_note_number_to_frequency
  have e5 : (((69 : ℤ) : ℝ) - 69) / 12 = 0 := by norm_num
  rw [e5, Real.rpow_zero]
  ring

lemma just_C_69_ne_et :
    midi_note_number_to_frequency (Tuning.JustIntonation 'C') 69 ≠
      midi_note_number_to_frequency Tuning.EqualTemperament 69 := by
  rw [just_C_69_value, et_69_value]
  have hpos : (0 : ℝ) < (2 : ℝ) ^ ((9 : ℝ) / 12) :=
    Real.rpow_pos_of_pos (by norm_num) _
  intro heq
  have h1 : (5 / 3 : ℝ) / (2 : ℝ) ^ ((9 : ℝ) / 12) = 1 := by
    calc (5 / 3 : ℝ) / (2 : ℝ) ^ ((9 : ℝ) / 12)
        = 440 * ((5 / 3 : ℝ) / (2 : ℝ) ^ ((9 : ℝ) / 12)) / 440 := by ring
      _ = 440 / 440 := by rw [heq]
      _ = 1 := by norm_num
  have h53 : (5 / 3 : ℝ) = (2 : ℝ) ^ ((9 : ℝ) / 12) :=
    (div_eq_one_iff_eq (ne_of_gt hpos)).mp h1
  have h4 : ((5 / 3 : ℝ)) ^ (4 : ℕ) = ((2 : ℝ) ^ ((9 : ℝ) / 12)) ^ (4 : ℕ) := by
    rw [h53]
  rw [← Real.rpow_natCast ((2 : ℝ) ^ ((9 : ℝ) / 12)) 4,
      ← Real.rpow_mul (by norm_num : (0 : ℝ) ≤ 2)] at h4
  have h9 : ((9 : ℝ) / 12) * ((4 : ℕ) : ℝ) = 3 := by norm_num
  rw [h9] at h4
  have h8 : (2 : ℝ) ^ ((3 : ℝ)) = 8 := by
    rw [show (3 : ℝ) = ((3 : ℕ) : ℝ) by norm_num, Real.rpow_natCast]
    norm_num
  rw [h8] at h4
  norm_num at h4

/-- The C10 scenario: note 69 started over MIDI under equal temperament, then
the tuning switched to `JustIntonation('C')` with the `','` key. -/
noncomputable def c10State : AppState :=
  on_key ',' (handle_midi_event 144 69 64 initAppState)

/-- Claim C10, witness: on the scenario state, a duplicate MIDI Note-On for
pitch 69 leaves the manager unchanged (the sounding voice keeps its
equal-temperament frequency in the engine log), while the display entry is
overwritten with the just-intonation frequency and the new velocity — and
that displayed frequency differs from the equal-temperament frequency the
voice was created with. -/
theorem midi_duplicate_overwrites_display_witness :
    (handle_midi_event 144 69 100 c10State).polyphony_manager =
      c10State.polyphony_manager ∧
    dictLookup 69 (handle_midi_event 144 69 100 c10State).notes =
      some (midi_note_number_to_frequency (Tuning.JustIntonation 'C') 69, 100) ∧
    midi_note_number_to_frequency (Tuning.JustIntonation 'C') 69 ≠
      midi_note_number_to_frequency Tuning.EqualTemperament 69 := by
  have htun : c10State.polyphony_manager.theory.tuning = Tuning.JustIntonation 'C' := by
    decide
  have hmem : (dictLookup 69 c10State.polyphony_manager.notes).isSome := by
    decide
  have h := midi_duplicate_overwrites_display c10State 144 69 100
    (by norm_num) (by norm_num) (by norm_num) hmem
  refine ⟨h.1, ?_, just_C_69_ne_et⟩
  rw [h.2, htun]
